import Mathlib

/-!
Verification development for the Eraserr media-retention engine.

The definitions below are a shallow embedding of the retention code in
`src/clients/radarr.py` and `src/clients/sonarr.py`:

* `filterSpecials`, `sortEpisodes`, `episodesToUnload` embed the episode
  window computation of `SonarrClient.__handle_continuing_series`
  (filter season 0, sort by `(seasonNumber, episodeNumber)`, slice off the
  first `episodes_to_load` elements).
* `buildTrimLists` embeds the partition of the trim set into episode ids
  to unmonitor and deduplicated episode-file ids to delete.
* `unmonitorEmptySeasons` embeds `SonarrClient.__unmonitor_empty_seasons`.
* `handleEndedSeries` / `handleContinuingSeries` embed the two per-series
  handlers, with remote outcomes (success or transport failure of each
  mutating call, and the record returned by the series update) supplied as
  oracle fields of the `Series` snapshot.
* `sonarrRun` / `radarrRun` embed the two `get_and_delete_media` batch
  entry points as folds over the fetched media listing, threading the
  candidate mapping, the byte total and the list of issued mutating calls.

Machine integers are modelled as `Int`/`Nat` (Python ints are unbounded);
dictionaries as association lists with unique keys, where `dict.pop(k)` is
removal of the binding of `k`.
-/

/-- An episode record as consumed by `__handle_continuing_series`:
`seasonNumber`, `episodeNumber`, `id`, `monitored` (default `False`),
`hasFile` (default `False`), `episodeFileId`. -/
structure Episode where
  id : Nat
  seasonNumber : Nat
  episodeNumber : Nat
  monitored : Bool
  hasFile : Bool
  episodeFileId : Nat
  deriving Repr, DecidableEq

/-- Lexicographic order on `(seasonNumber, episodeNumber)` pairs: the order
by which Python compares the key tuples of
`sorted(filtered_episodes, key=lambda x: (x['seasonNumber'], x['episodeNumber']))`. -/
def keyLe (a b : Nat × Nat) : Prop := a.1 < b.1 ∨ (a.1 = b.1 ∧ a.2 ≤ b.2)

instance (a b : Nat × Nat) : Decidable (keyLe a b) := by unfold keyLe; infer_instance

/-- The sort key of an episode. -/
def epKey (e : Episode) : Nat × Nat := (e.seasonNumber, e.episodeNumber)

/-- Comparison of two episodes by their sort keys. -/
def epRel (a b : Episode) : Prop := keyLe (epKey a) (epKey b)

instance : DecidableRel epRel := fun a b => by unfold epRel keyLe; infer_instance

instance : IsTotal Episode epRel := ⟨fun a b => by unfold epRel keyLe; omega⟩

instance : IsTrans Episode epRel :=
  ⟨fun a b c hab hbc => by unfold epRel keyLe at *; omega⟩

/-- Embeds `[episode for episode in episodes if episode['seasonNumber'] != 0]`. -/
def filterSpecials (episodes : List Episode) : List Episode :=
  episodes.filter (fun e => e.seasonNumber ≠ 0)

/-- Embeds `sorted(filtered_episodes, key=lambda x: (x['seasonNumber'], x['episodeNumber']))`:
Python's `sorted` is a stable comparison sort on the key tuples; a stable
sort is embedded here as insertion sort on the same lexicographic key
order, which keeps equal-key elements in input order exactly as `sorted`
does. -/
def sortEpisodes (episodes : List Episode) : List Episode :=
  List.insertionSort epRel episodes

/-- The filtered, sorted episode list of `__handle_continuing_series`. -/
def filteredSorted (episodes : List Episode) : List Episode :=
  sortEpisodes (filterSpecials episodes)

/-- The retain window: the first `retainCount` elements of the filtered,
sorted list (the complement of the `sorted_episodes[episodes_to_load:]`
slice taken by the code). -/
def retainWindow (retainCount : Nat) (episodes : List Episode) : List Episode :=
  (filteredSorted episodes).take retainCount

/-- Embeds `episodes_to_unload = sorted_episodes[self.dynamic_load.episodes_to_load:]`. -/
def episodesToUnload (retainCount : Nat) (episodes : List Episode) : List Episode :=
  (filteredSorted episodes).drop retainCount

/-- Accumulator of the `for episode in episodes_to_unload` loop of
`__handle_continuing_series`: episode ids to unmonitor and episode-file ids
to delete. -/
structure TrimLists where
  unmonitorIds : List Nat
  deleteFileIds : List Nat
  deriving Repr, DecidableEq

/-- One iteration of the loop: append `episode.id` when the episode is
monitored; append `episode.episodeFileId` when the episode has a file and
that id is not already queued. -/
def trimStep (acc : TrimLists) (e : Episode) : TrimLists :=
  let acc1 :=
    if e.monitored then { acc with unmonitorIds := acc.unmonitorIds ++ [e.id] } else acc
  if e.hasFile && !(acc1.deleteFileIds.contains e.episodeFileId) then
    { acc1 with deleteFileIds := acc1.deleteFileIds ++ [e.episodeFileId] }
  else acc1

/-- The full loop, starting from two empty lists. -/
def buildTrimLists (toUnload : List Episode) : TrimLists :=
  toUnload.foldl trimStep ⟨[], []⟩

/-- A season record as read by `__unmonitor_empty_seasons`:
`monitored` (default `False`) and `statistics.episodeCount` (default 0). -/
structure Season where
  seasonNumber : Nat
  monitored : Bool
  episodeCount : Nat
  deriving Repr, DecidableEq

/-- The per-season body of `__unmonitor_empty_seasons`: a season with a
positive episode count is skipped; otherwise, if it is monitored, its
`monitored` flag is set to `False`. -/
def unmonitorSeasonFix (season : Season) : Season :=
  if season.episodeCount > 0 then season
  else if season.monitored then { season with monitored := false }
  else season

/-- Embeds `SonarrClient.__unmonitor_empty_seasons`, applied to the season list of
the series record (in-place mutation of each season, modelled as a map). -/
def unmonitorEmptySeasons (seasons : List Season) : List Season :=
  seasons.map unmonitorSeasonFix

/-- A mutating HTTP request issued against the Radarr or Sonarr API.
`putSeries` records the series id and the season list of the payload. -/
inductive ApiCall where
  | deleteMovie (movieId : Nat)
  | deleteSeries (seriesId : Nat)
  | monitorEpisodes (episodeIds : List Nat) (monitored : Bool)
  | deleteEpisodeFiles (fileIds : List Nat)
  | putSeries (seriesId : Nat) (seasons : List Season)
  deriving Repr, DecidableEq

/-- A series snapshot as fetched by `SonarrClient.__get_media`, together
with the episode list `__get_media_episodes` returns for it and an oracle
for the outcome of each mutating call against it: the `*Fails` flags say
whether the corresponding request comes back non-2xx (raising a caught
`RequestException`), and `putSizeOnDisk` is the `statistics.sizeOnDisk` of
the record a successful `__put_media` returns. -/
structure Series where
  id : Option Nat
  tvdbId : Nat
  title : String
  tags : List Nat
  ended : Bool
  sizeOnDisk : Int
  seasons : List Season
  episodes : List Episode
  deleteFails : Bool
  monitorFails : Bool
  deleteFilesFails : Bool
  putFails : Bool
  putSizeOnDisk : Int
  deriving Repr, DecidableEq

/-- Embeds `str(series.get("tvdbId"))`: the key under which a series appears in the
candidate mapping. -/
def seriesKey (s : Series) : String := toString s.tvdbId

/-- A movie snapshot as fetched by `RadarrClient.__get_media`, with the
outcome oracle for its delete call. -/
structure Movie where
  id : Option Nat
  tmdbId : Nat
  title : String
  tags : List Nat
  sizeOnDisk : Int
  deleteFails : Bool
  deriving Repr, DecidableEq

/-- Embeds `str(movie.get("tmdbId"))`. -/
def movieKey (m : Movie) : String := toString m.tmdbId

/-- Embeds `SonarrClient.__handle_ended_series`. In dry-run it reports the series'
`statistics.sizeOnDisk` without any call; live it issues the series delete
(whose failure is caught and logged) and reaches the same final
`return series.get("statistics", \x7b\x7d).get("sizeOnDisk", 0)` on both the
success and the except path. -/
def handleEndedSeries (s : Series) (dryRun : Bool) : Int × List ApiCall :=
  let sizeOnDisk := s.sizeOnDisk
  if dryRun then (sizeOnDisk, [])
  else if s.deleteFails then (s.sizeOnDisk, [ApiCall.deleteSeries (s.id.getD 0)])
  else (s.sizeOnDisk, [ApiCall.deleteSeries (s.id.getD 0)])

/-- Embeds `SonarrClient.__handle_continuing_series`: fetch episodes, compute the
trim lists, then (live only) unmonitor, bulk-delete files, fix empty
seasons, persist, and account `original_size - updated_size`; a raised
`RequestException` anywhere in the try block is caught and the
`size_on_disk` accumulated so far (still 0 until after the put) returned. -/
def handleContinuingSeries (retainCount : Nat) (s : Series) (dryRun : Bool) :
    Int × List ApiCall :=
  let toUnload := episodesToUnload retainCount s.episodes
  let lists := buildTrimLists toUnload
  if dryRun then (0, [])
  else
    let monCalls :=
      if lists.unmonitorIds ≠ [] then [ApiCall.monitorEpisodes lists.unmonitorIds false]
      else []
    if lists.unmonitorIds ≠ [] ∧ s.monitorFails = true then (0, monCalls)
    else if lists.deleteFileIds ≠ [] then
      let delCall := ApiCall.deleteEpisodeFiles lists.deleteFileIds
      if s.deleteFilesFails then (0, monCalls ++ [delCall])
      else
        let originalSize := s.sizeOnDisk
        let newSeasons := unmonitorEmptySeasons s.seasons
        let putCall := ApiCall.putSeries (s.id.getD 0) newSeasons
        if s.putFails then (0, monCalls ++ [delCall, putCall])
        else (originalSize - s.putSizeOnDisk, monCalls ++ [delCall, putCall])
    else (0, monCalls)

/-- The disposition the spec's per-item state machine assigns to an item. -/
inductive Dispo where
  | exemptSkip
  | deleted
  | trimmed
  | noOp
  deriving Repr, DecidableEq

/-- The state threaded through a batch entry point: the candidate mapping
(association list with unique keys standing for the Python dict), the byte
total, the mutating calls issued so far, and the disposition assigned to
each item processed so far. -/
structure BatchState where
  remaining : List (String × String)
  totalSize : Int
  calls : List ApiCall
  dispos : List (String × Dispo)
  deriving Repr, DecidableEq

/-- Embeds `key in media_to_delete.keys()`. -/
def hasKey (m : List (String × String)) (k : String) : Bool :=
  m.any (fun p => p.1 == k)

/-- Embeds `media_to_delete.pop(key)`: removal of the (unique) binding of `key`. -/
def popKey (m : List (String × String)) (k : String) : List (String × String) :=
  m.filter (fun p => !(p.1 == k))

/-- Embeds `any(tag in exempt_tag_ids for tag in item.get("tags", []))`. -/
def tagsExempt (exemptTagIds : List Nat) (tags : List Nat) : Bool :=
  tags.any (fun t => exemptTagIds.contains t)

def initState (mapping : List (String × String)) : BatchState :=
  { remaining := mapping, totalSize := 0, calls := [], dispos := [] }

/-- One iteration of the `for series in media` loop of
`SonarrClient.get_and_delete_media`: skip keys outside the candidate
mapping; pop and skip exempt series; otherwise, when the series has an
internal id, dispatch on `not self.monitor_continuing_series or ended`. -/
def sonarrStep (monitorContinuing : Bool) (retainCount : Nat) (exemptTagIds : List Nat)
    (dryRun : Bool) (st : BatchState) (s : Series) : BatchState :=
  if !(hasKey st.remaining (seriesKey s)) then st
  else if tagsExempt exemptTagIds s.tags then
    { st with remaining := popKey st.remaining (seriesKey s),
              dispos := st.dispos ++ [(seriesKey s, Dispo.exemptSkip)] }
  else
    match s.id with
    | none => { st with dispos := st.dispos ++ [(seriesKey s, Dispo.noOp)] }
    | some _ =>
      if !monitorContinuing || s.ended then
        let r := handleEndedSeries s dryRun
        { st with totalSize := st.totalSize + r.1, calls := st.calls ++ r.2,
                  dispos := st.dispos ++ [(seriesKey s, Dispo.deleted)] }
      else
        let r := handleContinuingSeries retainCount s dryRun
        { st with totalSize := st.totalSize + r.1, calls := st.calls ++ r.2,
                  dispos := st.dispos ++ [(seriesKey s, Dispo.trimmed)] }

/-- Embeds `SonarrClient.get_and_delete_media` after the two batch-level fetches:
the per-series loop folded over the fetched listing. -/
def sonarrRun (monitorContinuing : Bool) (retainCount : Nat) (exemptTagIds : List Nat)
    (media : List Series) (mapping : List (String × String)) (dryRun : Bool) : BatchState :=
  media.foldl (sonarrStep monitorContinuing retainCount exemptTagIds dryRun)
    (initState mapping)

/-- One iteration of the `for movie in media` loop of
`RadarrClient.get_and_delete_media`: skip keys outside the mapping; pop and
skip exempt movies; otherwise, when the movie has an internal id, add
`sizeOnDisk` to the total *before* the dry-run check and the delete
attempt, and in a live run issue the delete (whose failure is caught and
the loop continued). -/
def radarrStep (exemptTagIds : List Nat) (dryRun : Bool) (st : BatchState) (m : Movie) :
    BatchState :=
  if !(hasKey st.remaining (movieKey m)) then st
  else if tagsExempt exemptTagIds m.tags then
    { st with remaining := popKey st.remaining (movieKey m),
              dispos := st.dispos ++ [(movieKey m, Dispo.exemptSkip)] }
  else
    match m.id with
    | none => { st with dispos := st.dispos ++ [(movieKey m, Dispo.noOp)] }
    | some mid =>
      let st1 := { st with totalSize := st.totalSize + m.sizeOnDisk,
                           dispos := st.dispos ++ [(movieKey m, Dispo.deleted)] }
      if dryRun then st1
      else if m.deleteFails then { st1 with calls := st1.calls ++ [ApiCall.deleteMovie mid] }
      else { st1 with calls := st1.calls ++ [ApiCall.deleteMovie mid] }

/-- The body of `RadarrClient.get_and_delete_media` (one attempt of the
retry-decorated function) after its two batch-level fetches. -/
def radarrRun (exemptTagIds : List Nat) (media : List Movie)
    (mapping : List (String × String)) (dryRun : Bool) : BatchState :=
  media.foldl (radarrStep exemptTagIds dryRun) (initState mapping)

/-- Models the documented semantics of the third-party `@retry(tries=a+1, delay=d)`
decorator wrapped around a whole batch function: run the function; on an
uncaught exception, if retries remain, wait `d` and run it again, else let
the exception propagate. `attempts n` is the outcome of the `n`-th
execution of the batch body; the result carries the final outcome, the
number of executions performed and the total delay waited. -/
def retryGo {E A : Type} (d : Nat) (attempts : Nat → Except E A) :
    Nat → Nat → Except E A × Nat × Nat
  | n, 0 => (attempts n, n + 1, d * n)
  | n, k + 1 =>
    match attempts n with
    | Except.ok a => (Except.ok a, n + 1, d * n)
    | Except.error _ => retryGo d attempts (n + 1) k

/-- Embeds `@retry(tries=3, delay=5)` on `RadarrClient.get_and_delete_media`:
up to 3 executions of the whole batch body, 5 seconds between them. -/
def radarrEntryRuns {E A : Type} (attempts : Nat → Except E A) : Except E A × Nat × Nat :=
  retryGo 5 attempts 0 2

/-- Embeds the undecorated `SonarrClient.get_and_delete_media` entry: it has no retry decorator: the batch body
runs exactly once and its outcome propagates. -/
def sonarrEntryRuns {E A : Type} (attempts : Nat → Except E A) : Except E A × Nat × Nat :=
  (attempts 0, 1, 0)

/-- The trim lists `__handle_continuing_series` computes for a series. -/
def trimListsOf (retainCount : Nat) (s : Series) : TrimLists :=
  buildTrimLists (episodesToUnload retainCount s.episodes)

/-- The (possibly empty) unmonitor-call segment at the head of the live
call sequence of `__handle_continuing_series`. -/
def monPartOf (retainCount : Nat) (s : Series) : List ApiCall :=
  if (trimListsOf retainCount s).unmonitorIds ≠ []
  then [ApiCall.monitorEpisodes (trimListsOf retainCount s).unmonitorIds false]
  else []

def isMonitorCall : ApiCall → Bool
  | ApiCall.monitorEpisodes _ _ => true
  | _ => false

def isDeleteFilesCall : ApiCall → Bool
  | ApiCall.deleteEpisodeFiles _ => true
  | _ => false

def isSeriesDeleteCall : ApiCall → Bool
  | ApiCall.deleteSeries _ => true
  | _ => false

/-- The key removed by an exempt item, as a predicate on mapping keys:
`k` names the item (`k == key`) and the item's tags intersect the exempt
ids. -/
def keyExempt (key : String) (exemptHit : Bool) (k : String) : Bool :=
  k == key && exemptHit

/-- A key some series of the listing would pop as exempt. -/
def sonarrExemptKey (ex : List Nat) (media : List Series) (k : String) : Bool :=
  media.any (fun s => keyExempt (seriesKey s) (tagsExempt ex s.tags) k)

/-- A key some movie of the listing would pop as exempt. -/
def radarrExemptKey (ex : List Nat) (media : List Movie) (k : String) : Bool :=
  media.any (fun m => keyExempt (movieKey m) (tagsExempt ex m.tags) k)

/-- The disposition label the per-item loop assigns, as a function of the
branch conditions alone (empty when the item's key is absent). -/
def seriesStepDispo (mc : Bool) (remaining : List (String × String)) (key : String)
    (exemptHit : Bool) (internalId : Option Nat) (ended : Bool) : List (String × Dispo) :=
  if !(hasKey remaining key) then []
  else if exemptHit then [(key, Dispo.exemptSkip)]
  else
    match internalId with
    | none => [(key, Dispo.noOp)]
    | some _ =>
      if !mc || ended then [(key, Dispo.deleted)] else [(key, Dispo.trimmed)]

/-- Same for the movie loop, which has no policy branch. -/
def movieStepDispo (remaining : List (String × String)) (key : String)
    (exemptHit : Bool) (internalId : Option Nat) : List (String × Dispo) :=
  if !(hasKey remaining key) then []
  else if exemptHit then [(key, Dispo.exemptSkip)]
  else
    match internalId with
    | none => [(key, Dispo.noOp)]
    | some _ => [(key, Dispo.deleted)]

def exTagIds : List Nat := [7]

def wMap : List (String × String) := [("42", "A Movie"), ("99", "A Series")]

def wMovie : Movie :=
  { id := some 1, tmdbId := 42, title := "A Movie", tags := [7, 3],
    sizeOnDisk := 100, deleteFails := false }

def wSeries : Series :=
  { id := some 2, tvdbId := 99, title := "A Series", tags := [7],
    ended := true, sizeOnDisk := 50, seasons := [], episodes := [],
    deleteFails := false, monitorFails := false, deleteFilesFails := false,
    putFails := false, putSizeOnDisk := 0 }

def wEp1 : Episode :=
  { id := 11, seasonNumber := 1, episodeNumber := 1, monitored := true,
    hasFile := true, episodeFileId := 101 }

def wEp2 : Episode :=
  { id := 12, seasonNumber := 1, episodeNumber := 2, monitored := false,
    hasFile := true, episodeFileId := 101 }

def wSeasonZero : Season := { seasonNumber := 1, monitored := true, episodeCount := 0 }

def wSeasonPos : Season := { seasonNumber := 2, monitored := true, episodeCount := 3 }

def wSeriesTrim : Series :=
  { id := some 2, tvdbId := 77, title := "A Continuing Series", tags := [],
    ended := false, sizeOnDisk := 500, seasons := [wSeasonZero, wSeasonPos],
    episodes := [wEp1, wEp2],
    deleteFails := false, monitorFails := false, deleteFilesFails := false,
    putFails := false, putSizeOnDisk := 200 }

def wMapTrim : List (String × String) := [("77", "A Continuing Series")]

def cFailMovie : Movie :=
  { id := some 9, tmdbId := 55, title := "A Failing Movie", tags := [],
    sizeOnDisk := 100, deleteFails := true }

def cFailSeries : Series :=
  { id := some 3, tvdbId := 88, title := "A Failing Series", tags := [],
    ended := false, sizeOnDisk := 300, seasons := [], episodes := [wEp1],
    deleteFails := true, monitorFails := true, deleteFilesFails := false,
    putFails := false, putSizeOnDisk := 0 }

theorem trimStep_deleteFileIds (acc : TrimLists) (e : Episode) :
    (trimStep acc e).deleteFileIds =
      if e.hasFile && !(acc.deleteFileIds.contains e.episodeFileId)
      then acc.deleteFileIds ++ [e.episodeFileId] else acc.deleteFileIds := by
  by_cases hc : (e.hasFile && !(acc.deleteFileIds.contains e.episodeFileId)) = true <;>
    by_cases hm : e.monitored <;>
      simp only [trimStep, hm, hc, if_true, if_false, Bool.false_eq_true] <;>
      (split <;> rfl)

theorem trimFold_deleteFileIds (toUnload : List Episode) :
    ∀ acc : TrimLists, acc.deleteFileIds.Nodup →
      (toUnload.foldl trimStep acc).deleteFileIds.Nodup
      ∧ ∀ fid, fid ∈ (toUnload.foldl trimStep acc).deleteFileIds ↔
          (fid ∈ acc.deleteFileIds
            ∨ ∃ e, e ∈ toUnload ∧ e.hasFile = true ∧ e.episodeFileId = fid) := by
  induction toUnload with
  | nil => intro acc h; simpa using h
  | cons e rest ih =>
    intro acc h
    rw [List.foldl_cons]
    have hstep := trimStep_deleteFileIds acc e
    by_cases hc : (e.hasFile && !(acc.deleteFileIds.contains e.episodeFileId)) = true
    · rw [if_pos hc] at hstep
      have hnotmem : e.episodeFileId ∉ acc.deleteFileIds := by
        rcases Bool.and_eq_true_iff.mp hc with ⟨_, hnc⟩
        simpa using hnc
      have hnd : (trimStep acc e).deleteFileIds.Nodup := by
        rw [hstep]
        simpa [List.nodup_append] using ⟨h, hnotmem⟩
      obtain ⟨ihnd, ihmem⟩ := ih (trimStep acc e) hnd
      refine ⟨ihnd, fun fid => ?_⟩
      rw [ihmem fid, hstep]
      have hhf : e.hasFile = true := (Bool.and_eq_true_iff.mp hc).1
      constructor
      · rintro (hmem | ⟨e2, he2, hf2, hid2⟩)
        · rcases List.mem_append.mp hmem with hmem | hmem
          · exact Or.inl hmem
          · exact Or.inr ⟨e, List.mem_cons_self _ _, hhf, (List.mem_singleton.mp hmem).symm⟩
        · exact Or.inr ⟨e2, List.mem_cons_of_mem _ he2, hf2, hid2⟩
      · rintro (hmem | ⟨e2, he2, hf2, hid2⟩)
        · exact Or.inl (List.mem_append.mpr (Or.inl hmem))
        · rcases List.mem_cons.mp he2 with rfl | he2
          · exact Or.inl (List.mem_append.mpr (Or.inr (List.mem_singleton.mpr hid2.symm)))
          · exact Or.inr ⟨e2, he2, hf2, hid2⟩
    · rw [if_neg hc] at hstep
      have hnd : (trimStep acc e).deleteFileIds.Nodup := by rw [hstep]; exact h
      obtain ⟨ihnd, ihmem⟩ := ih (trimStep acc e) hnd
      refine ⟨ihnd, fun fid => ?_⟩
      rw [ihmem fid, hstep]
      constructor
      · rintro (hmem | ⟨e2, he2, hf2, hid2⟩)
        · exact Or.inl hmem
        · exact Or.inr ⟨e2, List.mem_cons_of_mem _ he2, hf2, hid2⟩
      · rintro (hmem | ⟨e2, he2, hf2, hid2⟩)
        · exact Or.inl hmem
        · rcases List.mem_cons.mp he2 with heq | he2
          · subst heq
            left
            have hcont : e2.episodeFileId ∈ acc.deleteFileIds := by
              by_contra hnc
              exact hc (by simp [hf2, hnc])
            rw [← hid2]
            exact hcont
          · exact Or.inr ⟨e2, he2, hf2, hid2⟩

theorem sonarrStep_remaining (mc : Bool) (rc : Nat) (ex : List Nat) (dry : Bool)
    (st : BatchState) (s : Series) :
    (sonarrStep mc rc ex dry st s).remaining =
      if hasKey st.remaining (seriesKey s) && tagsExempt ex s.tags
      then popKey st.remaining (seriesKey s) else st.remaining := by
  unfold sonarrStep
  cases hi : s.id <;>
    by_cases hk : hasKey st.remaining (seriesKey s) <;>
      by_cases hx : tagsExempt ex s.tags <;>
        simp [hk, hx] <;> split <;> rfl

theorem radarrStep_remaining (ex : List Nat) (dry : Bool) (st : BatchState) (m : Movie) :
    (radarrStep ex dry st m).remaining =
      if hasKey st.remaining (movieKey m) && tagsExempt ex m.tags
      then popKey st.remaining (movieKey m) else st.remaining := by
  unfold radarrStep
  cases hi : m.id <;>
    by_cases hk : hasKey st.remaining (movieKey m) <;>
      by_cases hx : tagsExempt ex m.tags <;>
        simp [hk, hx] <;> split <;> rfl

theorem stepRemaining_eq_filter (m : List (String × String)) (k : String) (b : Bool) :
    (if hasKey m k && b then popKey m k else m)
      = m.filter (fun p => !(keyExempt k b p.1)) := by
  by_cases hb : b = true
  · subst hb
    by_cases hk : hasKey m k
    · simp [hk, popKey, keyExempt]
    · rw [Bool.and_true, if_neg (by simp [hk])]
      symm
      apply List.filter_eq_self.mpr
      intro p hp
      have hall := List.any_eq_false.mp (Bool.eq_false_iff.mpr hk)
      have := hall p hp
      simp only [keyExempt, Bool.and_true]
      simpa using this
  · have hb0 : b = false := Bool.eq_false_iff.mpr hb
    subst hb0
    simp [keyExempt]

theorem sonarrStep_dispos (mc : Bool) (rc : Nat) (ex : List Nat) (dry : Bool)
    (st : BatchState) (s : Series) :
    (sonarrStep mc rc ex dry st s).dispos =
      st.dispos ++
        seriesStepDispo mc st.remaining (seriesKey s) (tagsExempt ex s.tags) s.id s.ended := by
  unfold sonarrStep seriesStepDispo
  cases hi : s.id <;>
    by_cases hk : hasKey st.remaining (seriesKey s) <;>
      by_cases hx : tagsExempt ex s.tags <;>
        simp [hk, hx] <;> split <;> rfl

theorem radarrStep_dispos (ex : List Nat) (dry : Bool) (st : BatchState) (m : Movie) :
    (radarrStep ex dry st m).dispos =
      st.dispos ++ movieStepDispo st.remaining (movieKey m) (tagsExempt ex m.tags) m.id := by
  unfold radarrStep movieStepDispo
  cases hi : m.id <;>
    by_cases hk : hasKey st.remaining (movieKey m) <;>
      by_cases hx : tagsExempt ex m.tags <;>
        simp [hk, hx] <;> split <;> rfl

theorem sonarrStep_calls_dry (mc : Bool) (rc : Nat) (ex : List Nat)
    (st : BatchState) (s : Series) :
    (sonarrStep mc rc ex true st s).calls = st.calls := by
  unfold sonarrStep handleEndedSeries handleContinuingSeries
  cases hi : s.id <;>
    by_cases hk : hasKey st.remaining (seriesKey s) <;>
      by_cases hx : tagsExempt ex s.tags <;>
        simp [hk, hx] <;> split <;> rfl

theorem radarrStep_calls_dry (ex : List Nat) (st : BatchState) (m : Movie) :
    (radarrStep ex true st m).calls = st.calls := by
  unfold radarrStep
  cases hi : m.id <;>
    by_cases hk : hasKey st.remaining (movieKey m) <;>
      by_cases hx : tagsExempt ex m.tags <;>
        simp [hk, hx] <;> split <;> rfl

theorem sonarrFold_dry (mc : Bool) (rc : Nat) (ex : List Nat) (media : List Series) :
    ∀ st st' : BatchState,
      st.remaining = st'.remaining → st.dispos = st'.dispos →
      (media.foldl (sonarrStep mc rc ex true) st).calls = st.calls
      ∧ (media.foldl (sonarrStep mc rc ex true) st).remaining
          = (media.foldl (sonarrStep mc rc ex false) st').remaining
      ∧ (media.foldl (sonarrStep mc rc ex true) st).dispos
          = (media.foldl (sonarrStep mc rc ex false) st').dispos := by
  induction media with
  | nil => intro st st' hr hd; exact ⟨rfl, hr, hd⟩
  | cons s rest ih =>
    intro st st' hr hd
    rw [List.foldl_cons, List.foldl_cons]
    have hr2 : (sonarrStep mc rc ex true st s).remaining
        = (sonarrStep mc rc ex false st' s).remaining := by
      rw [sonarrStep_remaining, sonarrStep_remaining, hr]
    have hd2 : (sonarrStep mc rc ex true st s).dispos
        = (sonarrStep mc rc ex false st' s).dispos := by
      rw [sonarrStep_dispos, sonarrStep_dispos, hr, hd]
    obtain ⟨hc, hrm, hds⟩ := ih (sonarrStep mc rc ex true st s)
      (sonarrStep mc rc ex false st' s) hr2 hd2
    exact ⟨by rw [hc, sonarrStep_calls_dry], hrm, hds⟩

theorem radarrFold_dry (ex : List Nat) (media : List Movie) :
    ∀ st st' : BatchState,
      st.remaining = st'.remaining → st.dispos = st'.dispos →
      (media.foldl (radarrStep ex true) st).calls = st.calls
      ∧ (media.foldl (radarrStep ex true) st).remaining
          = (media.foldl (radarrStep ex false) st').remaining
      ∧ (media.foldl (radarrStep ex true) st).dispos
          = (media.foldl (radarrStep ex false) st').dispos := by
  induction media with
  | nil => intro st st' hr hd; exact ⟨rfl, hr, hd⟩
  | cons m rest ih =>
    intro st st' hr hd
    rw [List.foldl_cons, List.foldl_cons]
    have hr2 : (radarrStep ex true st m).remaining
        = (radarrStep ex false st' m).remaining := by
      rw [radarrStep_remaining, radarrStep_remaining, hr]
    have hd2 : (radarrStep ex true st m).dispos
        = (radarrStep ex false st' m).dispos := by
      rw [radarrStep_dispos, radarrStep_dispos, hr, hd]
    obtain ⟨hc, hrm, hds⟩ := ih (radarrStep ex true st m) (radarrStep ex false st' m) hr2 hd2
    exact ⟨by rw [hc, radarrStep_calls_dry], hrm, hds⟩

theorem sonarrFold_remaining (mc : Bool) (rc : Nat) (ex : List Nat) (dry : Bool)
    (media : List Series) :
    ∀ (m : List (String × String)) (st : BatchState), st.remaining = m →
      (media.foldl (sonarrStep mc rc ex dry) st).remaining
        = m.filter (fun p => !(sonarrExemptKey ex media p.1)) := by
  induction media with
  | nil =>
    intro m st h
    simpa [sonarrExemptKey] using h
  | cons s rest ih =>
    intro m st h
    rw [List.foldl_cons]
    have hstep : (sonarrStep mc rc ex dry st s).remaining
        = m.filter (fun p => !(keyExempt (seriesKey s) (tagsExempt ex s.tags) p.1)) := by
      rw [sonarrStep_remaining, h, stepRemaining_eq_filter]
    rw [ih _ (sonarrStep mc rc ex dry st s) hstep, List.filter_filter]
    apply List.filter_congr
    intro p hp
    simp [sonarrExemptKey, Bool.and_comm]

theorem radarrFold_remaining (ex : List Nat) (dry : Bool) (media : List Movie) :
    ∀ (m : List (String × String)) (st : BatchState), st.remaining = m →
      (media.foldl (radarrStep ex dry) st).remaining
        = m.filter (fun p => !(radarrExemptKey ex media p.1)) := by
  induction media with
  | nil =>
    intro m st h
    simpa [radarrExemptKey] using h
  | cons mv rest ih =>
    intro m st h
    rw [List.foldl_cons]
    have hstep : (radarrStep ex dry st mv).remaining
        = m.filter (fun p => !(keyExempt (movieKey mv) (tagsExempt ex mv.tags) p.1)) := by
      rw [radarrStep_remaining, h, stepRemaining_eq_filter]
    rw [ih _ (radarrStep ex dry st mv) hstep, List.filter_filter]
    apply List.filter_congr
    intro p hp
    simp [radarrExemptKey, Bool.and_comm]

/-- C1: the Episode Window Selector removes season-0 episodes, sorts the
remainder ascending by `(seasonNumber, episodeNumber)`, and splits it so
that the retain window is the first `min(retainCount, N)` elements, the
trim set is the elements at index ≥ `retainCount`, and retain followed by
trim recreates the filtered, sorted input, which is a permutation of the
season-0-free input (each surviving episode appears exactly once). -/
theorem episode_window_partition (episodes : List Episode) (retainCount : Nat) :
    retainWindow retainCount episodes ++ episodesToUnload retainCount episodes
        = filteredSorted episodes
    ∧ (retainWindow retainCount episodes).length
        = min retainCount (filteredSorted episodes).length
    ∧ (filteredSorted episodes).Perm
        (episodes.filter (fun e => e.seasonNumber ≠ 0))
    ∧ List.Pairwise (fun a b => keyLe (epKey a) (epKey b)) (filteredSorted episodes) := by
  refine ⟨List.take_append_drop _ _, List.length_take _ _, ?_, ?_⟩
  · exact List.perm_insertionSort _ _
  · exact List.sorted_insertionSort epRel (filterSpecials episodes)

/-- C2: an item whose tag set intersects the resolved exempt ids is popped
from the candidate mapping and contributes no mutating call and no bytes;
the outcome is the same for every dry-run flag, internal id, ended status
and policy setting (the exempt check precedes every other per-item check),
in both the movie and the series loop. -/
theorem exempt_skip_exclusive (mc : Bool) (rc : Nat) (ex : List Nat) (dry : Bool)
    (st : BatchState) (m : Movie) (s : Series)
    (hmx : tagsExempt ex m.tags = true)
    (hmk : hasKey st.remaining (movieKey m) = true)
    (hsx : tagsExempt ex s.tags = true)
    (hsk : hasKey st.remaining (seriesKey s) = true) :
    radarrStep ex dry st m =
      { st with remaining := popKey st.remaining (movieKey m),
                dispos := st.dispos ++ [(movieKey m, Dispo.exemptSkip)] }
    ∧ sonarrStep mc rc ex dry st s =
      { st with remaining := popKey st.remaining (seriesKey s),
                dispos := st.dispos ++ [(seriesKey s, Dispo.exemptSkip)] } := by
  constructor
  · simp [radarrStep, hmx, hmk]
  · simp [sonarrStep, hsx, hsk]

theorem exempt_skip_exclusive_witness :
    tagsExempt exTagIds wMovie.tags = true
    ∧ hasKey (initState wMap).remaining (movieKey wMovie) = true
    ∧ tagsExempt exTagIds wSeries.tags = true
    ∧ hasKey (initState wMap).remaining (seriesKey wSeries) = true
    ∧ (radarrStep exTagIds false (initState wMap) wMovie =
        { initState wMap with
            remaining := popKey (initState wMap).remaining (movieKey wMovie),
            dispos := (initState wMap).dispos ++ [(movieKey wMovie, Dispo.exemptSkip)] }
      ∧ sonarrStep true 5 exTagIds false (initState wMap) wSeries =
        { initState wMap with
            remaining := popKey (initState wMap).remaining (seriesKey wSeries),
            dispos := (initState wMap).dispos ++ [(seriesKey wSeries, Dispo.exemptSkip)] }) :=
  ⟨rfl, rfl, rfl, rfl,
   exempt_skip_exclusive true 5 exTagIds false (initState wMap) wMovie wSeries
     rfl rfl rfl rfl⟩

/-- C4: with dry-run true each batch entry point issues zero mutating
calls, and the per-item dispositions and the returned candidate mapping are
the same as those of a live run over the same snapshot. -/
theorem dry_run_non_mutating (mc : Bool) (rc : Nat) (ex : List Nat)
    (smedia : List Series) (rmedia : List Movie) (mapping : List (String × String)) :
    (sonarrRun mc rc ex smedia mapping true).calls = []
    ∧ (sonarrRun mc rc ex smedia mapping true).dispos
        = (sonarrRun mc rc ex smedia mapping false).dispos
    ∧ (sonarrRun mc rc ex smedia mapping true).remaining
        = (sonarrRun mc rc ex smedia mapping false).remaining
    ∧ (radarrRun ex rmedia mapping true).calls = []
    ∧ (radarrRun ex rmedia mapping true).dispos = (radarrRun ex rmedia mapping false).dispos
    ∧ (radarrRun ex rmedia mapping true).remaining
        = (radarrRun ex rmedia mapping false).remaining := by
  obtain ⟨hc, hr, hd⟩ :=
    sonarrFold_dry mc rc ex smedia (initState mapping) (initState mapping) rfl rfl
  obtain ⟨hc2, hr2, hd2⟩ :=
    radarrFold_dry ex rmedia (initState mapping) (initState mapping) rfl rfl
  exact ⟨hc, hd, hr, hc2, hd2, hr2⟩

/-- C6: the deduplicated delete-file-id list built from a trim set has no
duplicates, contains an id exactly when some trimmed episode has a file
carrying that id, and a shared id appears exactly once. -/
theorem delete_file_ids_dedup (retainCount : Nat) (episodes : List Episode) :
    (buildTrimLists (episodesToUnload retainCount episodes)).deleteFileIds.Nodup
    ∧ (∀ fid, fid ∈ (buildTrimLists (episodesToUnload retainCount episodes)).deleteFileIds ↔
        ∃ e, e ∈ episodesToUnload retainCount episodes
          ∧ e.hasFile = true ∧ e.episodeFileId = fid)
    ∧ ∀ fid,
        (∃ e, e ∈ episodesToUnload retainCount episodes
          ∧ e.hasFile = true ∧ e.episodeFileId = fid) →
        (buildTrimLists (episodesToUnload retainCount episodes)).deleteFileIds.count fid
          = 1 := by
  unfold buildTrimLists
  obtain ⟨hnd, hmem⟩ := trimFold_deleteFileIds (episodesToUnload retainCount episodes)
    ⟨[], []⟩ (by simp)
  refine ⟨hnd, fun fid => ?_, fun fid hex => ?_⟩
  · rw [hmem fid]
    simp
  · exact List.count_eq_one_of_mem hnd ((hmem fid).mpr (Or.inr hex))

theorem delete_file_ids_dedup_witness :
    (buildTrimLists (episodesToUnload 0 [wEp1, wEp2])).deleteFileIds.Nodup
    ∧ (∀ fid, fid ∈ (buildTrimLists (episodesToUnload 0 [wEp1, wEp2])).deleteFileIds ↔
        ∃ e, e ∈ episodesToUnload 0 [wEp1, wEp2]
          ∧ e.hasFile = true ∧ e.episodeFileId = fid)
    ∧ ∀ fid,
        (∃ e, e ∈ episodesToUnload 0 [wEp1, wEp2]
          ∧ e.hasFile = true ∧ e.episodeFileId = fid) →
        (buildTrimLists (episodesToUnload 0 [wEp1, wEp2])).deleteFileIds.count fid = 1 :=
  delete_file_ids_dedup 0 [wEp1, wEp2]

/-- C10: in both modes, the candidate mapping returned by each batch entry
point is exactly the input mapping with the keys of exempted items removed;
deleted, trimmed, no-internal-id and failed items all keep their keys. -/
theorem returned_mapping_frame (mc : Bool) (rc : Nat) (ex : List Nat) (dry : Bool)
    (smedia : List Series) (rmedia : List Movie) (mapping : List (String × String)) :
    (sonarrRun mc rc ex smedia mapping dry).remaining
      = mapping.filter (fun p => !(sonarrExemptKey ex smedia p.1))
    ∧ (radarrRun ex rmedia mapping dry).remaining
      = mapping.filter (fun p => !(radarrExemptKey ex rmedia p.1)) :=
  ⟨sonarrFold_remaining mc rc ex dry smedia mapping (initState mapping) rfl,
   radarrFold_remaining ex dry rmedia mapping (initState mapping) rfl⟩

/-- C5: dry-run byte accounting is asymmetric: a candidate movie with an
internal id adds its `sizeOnDisk` to the total in dry-run, an ended (or
policy-disabled) series reports its `sizeOnDisk` in dry-run, while a
continuing-series trim reports exactly zero bytes in dry-run. -/
theorem dry_run_byte_asymmetry (rc : Nat) (ex : List Nat) (st : BatchState)
    (m : Movie) (mid : Nat) (s : Series)
    (hmk : hasKey st.remaining (movieKey m) = true)
    (hmx : tagsExempt ex m.tags = false)
    (hmid : m.id = some mid) :
    (radarrStep ex true st m).totalSize = st.totalSize + m.sizeOnDisk
    ∧ handleEndedSeries s true = (s.sizeOnDisk, [])
    ∧ handleContinuingSeries rc s true = (0, []) := by
  refine ⟨?_, rfl, rfl⟩
  simp [radarrStep, hmk, hmx, hmid]

theorem dry_run_byte_asymmetry_witness :
    hasKey (initState wMap).remaining (movieKey wMovie) = true
    ∧ tagsExempt [] wMovie.tags = false
    ∧ wMovie.id = some 1
    ∧ ((radarrStep [] true (initState wMap) wMovie).totalSize
          = (initState wMap).totalSize + wMovie.sizeOnDisk
      ∧ handleEndedSeries wSeries true = (wSeries.sizeOnDisk, [])
      ∧ handleContinuingSeries 5 wSeries true = (0, [])) :=
  ⟨rfl, rfl, rfl,
   dry_run_byte_asymmetry 5 [] (initState wMap) wMovie 1 wSeries rfl rfl rfl⟩

theorem handleContinuing_calls_shape (rc : Nat) (s : Series) (dry : Bool) :
    (handleContinuingSeries rc s dry).2 = []
    ∨ (handleContinuingSeries rc s dry).2 = monPartOf rc s
    ∨ (handleContinuingSeries rc s dry).2
        = monPartOf rc s ++ [ApiCall.deleteEpisodeFiles (trimListsOf rc s).deleteFileIds]
    ∨ (handleContinuingSeries rc s dry).2
        = monPartOf rc s
          ++ [ApiCall.deleteEpisodeFiles (trimListsOf rc s).deleteFileIds,
              ApiCall.putSeries (s.id.getD 0) (unmonitorEmptySeasons s.seasons)] := by
  simp only [handleContinuingSeries, monPartOf, trimListsOf]
  split
  · exact Or.inl rfl
  · split
    · exact Or.inr (Or.inl rfl)
    · split
      · split
        · exact Or.inr (Or.inr (Or.inl rfl))
        · split
          · exact Or.inr (Or.inr (Or.inr rfl))
          · exact Or.inr (Or.inr (Or.inr rfl))
      · exact Or.inr (Or.inl rfl)

/-- C7: in a live continuing-series trim whose delete-file-id list is
non-empty (and whose calls all succeed), the call sequence is the optional
unmonitor call, then the bulk file deletion, then the persistence of the
series record whose seasons are the snapshot's seasons with every
zero-episode-count season unmonitored and every positive-count season
unchanged; the bytes accounted are the snapshot `sizeOnDisk` minus the
`sizeOnDisk` of the record the update call returns. -/
theorem trim_live_update_accounting (rc : Nat) (s : Series)
    (hmon : s.monitorFails = false) (hdel : s.deleteFilesFails = false)
    (hput : s.putFails = false)
    (hne : (trimListsOf rc s).deleteFileIds ≠ []) :
    handleContinuingSeries rc s false
      = (s.sizeOnDisk - s.putSizeOnDisk,
         monPartOf rc s
           ++ [ApiCall.deleteEpisodeFiles (trimListsOf rc s).deleteFileIds,
               ApiCall.putSeries (s.id.getD 0) (unmonitorEmptySeasons s.seasons)])
    ∧ ∀ season ∈ s.seasons,
        (season.episodeCount = 0 → (unmonitorSeasonFix season).monitored = false)
        ∧ (0 < season.episodeCount → unmonitorSeasonFix season = season) := by
  constructor
  · unfold trimListsOf at hne
    simp only [handleContinuingSeries, monPartOf, trimListsOf]
    rw [if_neg (by simp), if_neg (by simp [hmon]), if_pos hne,
      if_neg (by simp [hdel]), if_neg (by simp [hput])]
  · intro season hs
    constructor
    · intro hzero
      by_cases hm : season.monitored <;> simp [unmonitorSeasonFix, hzero, hm]
    · intro hpos
      simp [unmonitorSeasonFix, hpos]

theorem trim_live_update_accounting_witness :
    wSeriesTrim.monitorFails = false
    ∧ wSeriesTrim.deleteFilesFails = false
    ∧ wSeriesTrim.putFails = false
    ∧ (trimListsOf 0 wSeriesTrim).deleteFileIds ≠ []
    ∧ (handleContinuingSeries 0 wSeriesTrim false
        = (wSeriesTrim.sizeOnDisk - wSeriesTrim.putSizeOnDisk,
           monPartOf 0 wSeriesTrim
             ++ [ApiCall.deleteEpisodeFiles (trimListsOf 0 wSeriesTrim).deleteFileIds,
                 ApiCall.putSeries (wSeriesTrim.id.getD 0)
                   (unmonitorEmptySeasons wSeriesTrim.seasons)])
      ∧ ∀ season ∈ wSeriesTrim.seasons,
          (season.episodeCount = 0 → (unmonitorSeasonFix season).monitored = false)
          ∧ (0 < season.episodeCount → unmonitorSeasonFix season = season)) :=
  ⟨rfl, rfl, rfl, by decide,
   trim_live_update_accounting 0 wSeriesTrim rfl rfl rfl (by decide)⟩

theorem mem_monPartOf {rc : Nat} {s : Series} {c : ApiCall} (hc : c ∈ monPartOf rc s) :
    c = ApiCall.monitorEpisodes (trimListsOf rc s).unmonitorIds false := by
  unfold monPartOf at hc
  split at hc
  · simpa using hc
  · simp at hc

theorem deleteFileIds_mem_toUnload (rc : Nat) (s : Series) (fid : Nat)
    (h : fid ∈ (trimListsOf rc s).deleteFileIds) :
    ∃ e, e ∈ episodesToUnload rc s.episodes ∧ e.hasFile = true ∧ e.episodeFileId = fid := by
  unfold trimListsOf buildTrimLists at h
  obtain ⟨_, hmem⟩ :=
    trimFold_deleteFileIds (episodesToUnload rc s.episodes) ⟨[], []⟩ (by simp)
  rcases (hmem fid).mp h with h0 | h
  · simp at h0
  · exact h

/-- C8: for a continuing (not ended) candidate series under the enabled
monitor-continuing-series policy, the per-series call sequence contains no
series-level delete; every file id it submits for deletion belongs to a
trim-set episode that has a file, and every unmonitor call precedes every
other call in the sequence. -/
theorem continuing_policy_series_preserved (rc : Nat) (ex : List Nat) (dry : Bool)
    (st : BatchState) (s : Series) (mid : Nat)
    (hid : s.id = some mid) (hend : s.ended = false)
    (hkey : hasKey st.remaining (seriesKey s) = true)
    (hex : tagsExempt ex s.tags = false) :
    (sonarrStep true rc ex dry st s).calls
        = st.calls ++ (handleContinuingSeries rc s dry).2
    ∧ (∀ c ∈ (handleContinuingSeries rc s dry).2, isSeriesDeleteCall c = false)
    ∧ (∀ fids, ApiCall.deleteEpisodeFiles fids ∈ (handleContinuingSeries rc s dry).2 →
        ∀ fid ∈ fids,
          ∃ e, e ∈ episodesToUnload rc s.episodes
            ∧ e.hasFile = true ∧ e.episodeFileId = fid)
    ∧ ∃ monPart tail, (handleContinuingSeries rc s dry).2 = monPart ++ tail
        ∧ (∀ c ∈ monPart, isMonitorCall c = true)
        ∧ (∀ c ∈ tail, isMonitorCall c = false) := by
  refine ⟨?_, ?_, ?_, ?_⟩
  · simp [sonarrStep, hkey, hex, hid, hend]
  · intro c hc
    rcases handleContinuing_calls_shape rc s dry with h | h | h | h <;> rw [h] at hc
    · simp at hc
    · rw [mem_monPartOf hc]; rfl
    · rcases List.mem_append.mp hc with hc | hc
      · rw [mem_monPartOf hc]; rfl
      · rw [List.mem_singleton.mp hc]; rfl
    · rcases List.mem_append.mp hc with hc | hc
      · rw [mem_monPartOf hc]; rfl
      · rcases List.mem_cons.mp hc with hc | hc
        · rw [hc]; rfl
        · rw [List.mem_singleton.mp hc]; rfl
  · intro fids hmem fid hfid
    have hfids : fids = (trimListsOf rc s).deleteFileIds := by
      rcases handleContinuing_calls_shape rc s dry with h | h | h | h <;> rw [h] at hmem
      · simp at hmem
      · have := mem_monPartOf hmem; simp at this
      · rcases List.mem_append.mp hmem with hc | hc
        · have := mem_monPartOf hc; simp at this
        · simpa using List.mem_singleton.mp hc
      · rcases List.mem_append.mp hmem with hc | hc
        · have := mem_monPartOf hc; simp at this
        · rcases List.mem_cons.mp hc with hc | hc
          · simpa using hc
          · simp at hc
    subst hfids
    exact deleteFileIds_mem_toUnload rc s fid hfid
  · rcases handleContinuing_calls_shape rc s dry with h | h | h | h
    · exact ⟨[], [], by simpa using h, by simp, by simp⟩
    · refine ⟨monPartOf rc s, [], by simpa using h, ?_, by simp⟩
      intro c hc
      rw [mem_monPartOf hc]; rfl
    · refine ⟨monPartOf rc s,
        [ApiCall.deleteEpisodeFiles (trimListsOf rc s).deleteFileIds], h, ?_, ?_⟩
      · intro c hc
        rw [mem_monPartOf hc]; rfl
      · intro c hc
        rw [List.mem_singleton.mp hc]; rfl
    · refine ⟨monPartOf rc s,
        [ApiCall.deleteEpisodeFiles (trimListsOf rc s).deleteFileIds,
         ApiCall.putSeries (s.id.getD 0) (unmonitorEmptySeasons s.seasons)], h, ?_, ?_⟩
      · intro c hc
        rw [mem_monPartOf hc]; rfl
      · intro c hc
        rcases List.mem_cons.mp hc with hc | hc
        · rw [hc]; rfl
        · rw [List.mem_singleton.mp hc]; rfl

theorem continuing_policy_series_preserved_witness :
    wSeriesTrim.id = some 2
    ∧ wSeriesTrim.ended = false
    ∧ hasKey (initState wMapTrim).remaining (seriesKey wSeriesTrim) = true
    ∧ tagsExempt [] wSeriesTrim.tags = false
    ∧ ((sonarrStep true 0 [] false (initState wMapTrim) wSeriesTrim).calls
        = (initState wMapTrim).calls ++ (handleContinuingSeries 0 wSeriesTrim false).2
      ∧ (∀ c ∈ (handleContinuingSeries 0 wSeriesTrim false).2, isSeriesDeleteCall c = false)
      ∧ (∀ fids,
          ApiCall.deleteEpisodeFiles fids ∈ (handleContinuingSeries 0 wSeriesTrim false).2 →
          ∀ fid ∈ fids,
            ∃ e, e ∈ episodesToUnload 0 wSeriesTrim.episodes
              ∧ e.hasFile = true ∧ e.episodeFileId = fid)
      ∧ ∃ monPart tail,
          (handleContinuingSeries 0 wSeriesTrim false).2 = monPart ++ tail
          ∧ (∀ c ∈ monPart, isMonitorCall c = true)
          ∧ (∀ c ∈ tail, isMonitorCall c = false)) :=
  ⟨rfl, rfl, rfl, rfl,
   continuing_policy_series_preserved 0 [] false (initState wMapTrim) wSeriesTrim 2
     rfl rfl rfl rfl⟩

/-- C9: the Radarr-variant entry point wraps the whole batch body in a
bounded retry (3 attempts, a fixed 5-second delay between them) that
re-runs the entire function on any unhandled exception; the Sonarr-variant
entry point has no outer retry, so an unhandled exception propagates after
exactly one execution of the batch body. -/
theorem retry_scope_asymmetry {E A : Type} (attempts : Nat → Except E A)
    (hfail : ∀ n, ∃ e, attempts n = Except.error e) :
    (∃ e, (radarrEntryRuns attempts).1 = Except.error e)
    ∧ (radarrEntryRuns attempts).2.1 = 3
    ∧ (radarrEntryRuns attempts).2.2 = 10
    ∧ (sonarrEntryRuns attempts).1 = attempts 0
    ∧ (sonarrEntryRuns attempts).2.1 = 1 := by
  obtain ⟨e0, h0⟩ := hfail 0
  obtain ⟨e1, h1⟩ := hfail 1
  obtain ⟨e2, h2⟩ := hfail 2
  refine ⟨⟨e2, ?_⟩, ?_, ?_, rfl, rfl⟩ <;>
    simp [radarrEntryRuns, retryGo, h0, h1, h2]

theorem retry_scope_asymmetry_witness :
    (∀ n : Nat, ∃ e : Nat,
        (fun _ : Nat => (Except.error 0 : Except Nat Nat)) n = Except.error e)
    ∧ ((∃ e, (radarrEntryRuns (fun _ : Nat => (Except.error 0 : Except Nat Nat))).1
            = Except.error e)
      ∧ (radarrEntryRuns (fun _ : Nat => (Except.error 0 : Except Nat Nat))).2.1 = 3
      ∧ (radarrEntryRuns (fun _ : Nat => (Except.error 0 : Except Nat Nat))).2.2 = 10
      ∧ (sonarrEntryRuns (fun _ : Nat => (Except.error 0 : Except Nat Nat))).1
          = (fun _ : Nat => (Except.error 0 : Except Nat Nat)) 0
      ∧ (sonarrEntryRuns (fun _ : Nat => (Except.error 0 : Except Nat Nat))).2.1 = 1) :=
  ⟨fun _ => ⟨0, rfl⟩,
   retry_scope_asymmetry (fun _ : Nat => (Except.error 0 : Except Nat Nat))
     (fun _ => ⟨0, rfl⟩)⟩

/-- C3 counterexample: in a live Radarr run over one candidate movie whose
delete call fails, the batch total is the movie's 100 bytes, not zero —
refuting the zero-byte clause of the claim at this concrete input. -/
theorem live_failure_counts_bytes_counterexample :
    cFailMovie.deleteFails = true
    ∧ (radarrRun [] [cFailMovie] [("55", "A Failing Movie")] false).totalSize = 100
    ∧ ¬ ((100 : Int) = 0) :=
  ⟨rfl, rfl, by decide⟩

/-- C3 (amended): a failed mutating call in a live run is caught at the
per-item boundary and the batch continues with the remaining items, but the
failed item's byte contribution is zero only on the continuing-series trim
path; a failed movie delete or ended-series delete still contributes the
item's `sizeOnDisk` to the batch total. -/
theorem live_mutation_failure_isolated (rc : Nat) (ex : List Nat) (st : BatchState)
    (m : Movie) (mid : Nat) (rest : List Movie) (mapping : List (String × String))
    (s : Series)
    (hmid : m.id = some mid) (hmf : m.deleteFails = true)
    (hmk : hasKey st.remaining (movieKey m) = true)
    (hmx : tagsExempt ex m.tags = false)
    (hsf : s.deleteFails = true)
    (hcm : s.monitorFails = true)
    (hcu : (trimListsOf rc s).unmonitorIds ≠ []) :
    radarrStep ex false st m
      = { st with totalSize := st.totalSize + m.sizeOnDisk,
                  dispos := st.dispos ++ [(movieKey m, Dispo.deleted)],
                  calls := st.calls ++ [ApiCall.deleteMovie mid] }
    ∧ radarrRun ex (m :: rest) mapping false
        = rest.foldl (radarrStep ex false) (radarrStep ex false (initState mapping) m)
    ∧ handleEndedSeries s false = (s.sizeOnDisk, [ApiCall.deleteSeries (s.id.getD 0)])
    ∧ handleContinuingSeries rc s false
        = (0, [ApiCall.monitorEpisodes (trimListsOf rc s).unmonitorIds false]) := by
  refine ⟨?_, rfl, ?_, ?_⟩
  · simp [radarrStep, hmk, hmx, hmid, hmf]
  · simp [handleEndedSeries, hsf]
  · unfold trimListsOf at hcu ⊢
    simp [handleContinuingSeries, hcm, hcu]

theorem live_mutation_failure_isolated_witness :
    cFailMovie.id = some 9
    ∧ cFailMovie.deleteFails = true
    ∧ hasKey (initState [("55", "A Failing Movie")]).remaining (movieKey cFailMovie) = true
    ∧ tagsExempt [] cFailMovie.tags = false
    ∧ cFailSeries.deleteFails = true
    ∧ cFailSeries.monitorFails = true
    ∧ (trimListsOf 0 cFailSeries).unmonitorIds ≠ []
    ∧ (radarrStep [] false (initState [("55", "A Failing Movie")]) cFailMovie
        = { initState [("55", "A Failing Movie")] with
              totalSize := (initState [("55", "A Failing Movie")]).totalSize
                + cFailMovie.sizeOnDisk,
              dispos := (initState [("55", "A Failing Movie")]).dispos
                ++ [(movieKey cFailMovie, Dispo.deleted)],
              calls := (initState [("55", "A Failing Movie")]).calls
                ++ [ApiCall.deleteMovie 9] }
      ∧ radarrRun [] (cFailMovie :: []) [("55", "A Failing Movie")] false
          = List.foldl (radarrStep [] false)
              (radarrStep [] false (initState [("55", "A Failing Movie")]) cFailMovie) []
      ∧ handleEndedSeries cFailSeries false
          = (cFailSeries.sizeOnDisk, [ApiCall.deleteSeries (cFailSeries.id.getD 0)])
      ∧ handleContinuingSeries 0 cFailSeries false
          = (0, [ApiCall.monitorEpisodes (trimListsOf 0 cFailSeries).unmonitorIds false])) :=
  ⟨rfl, rfl, rfl, rfl, rfl, rfl, by decide,
   live_mutation_failure_isolated 0 [] (initState [("55", "A Failing Movie")])
     cFailMovie 9 [] [("55", "A Failing Movie")] cFailSeries
     rfl rfl rfl rfl rfl rfl (by decide)⟩
